import Mathlib

/-!
# Verification of the beehav_v2 averages engine and CRUD layer

A shallow embedding of the behavior-tracking application's core:

* the `/averages` endpoint of `api.py` (`get_averages`, lines 247-276):
  sanitization of raw score rows, ISO-calendar keying, and the two
  `groupby(...)['score'].agg(['mean','count'])` passes;
* the ownership-filtered read endpoints of `api.py` and `engine.py`;
* the update/delete endpoints of `api.py` for subjects and definitions.

Modelling decisions, stated once here:

* Machine integers are `Int`/`Nat` (no overflow is relevant: Python ints are
  unbounded and the pandas columns hold small values).
* pandas `float64` score values and the `mean` aggregate are modelled as exact
  rationals `ℚ`; the spec's P3 asserts mean correctness only up to
  floating-point tolerance, which the exact model subsumes.
* `pd.to_datetime(col, errors='coerce')` and `pd.to_numeric(col, errors='coerce')`
  are modelled by `Option` fields on the raw row: `none` is the `NaT`/`NaN`
  a failed parse coerces to, which the subsequent `dropna` removes.  The string
  parsing itself is pandas-library behavior, not repository code.
* `Series.dt.isocalendar()` (pandas) is modelled by `isoYear`/`isoWeek` below,
  implementing the ISO-8601 week calendar: Monday-start weeks, a date's week is
  numbered within the year of that week's Thursday.
* Python functions that can raise return `Except`; total Lean functions model
  the fact that the sanitization path never raises.
* SQL result sets are modelled as lists in store order.  The `ORDER BY`
  clauses of the read endpoints only permute the returned sequence and no
  claim below is order-sensitive, so they are not modelled.
-/

namespace Beehav

/-! ## Calendar dates and the ISO week calendar -/

/-- A parsed calendar date, as produced by a successful
`pd.to_datetime(..., errors='coerce')` of a value of the `Date` column. -/
structure CalDate where
  year : Int
  month : Int
  day : Int
deriving DecidableEq, Repr

/-- Days since the epoch 1970-01-01 of a civil date (proleptic Gregorian
calendar).  Standard days-from-civil computation, using floor division so that
negative years are handled uniformly. -/
def daysFromCivil (d : CalDate) : Int :=
  let y : Int := if d.month ≤ 2 then d.year - 1 else d.year
  let era : Int := Int.fdiv y 400
  let yoe : Int := y - era * 400
  let mp : Int := Int.fmod (d.month + 9) 12
  let doy : Int := (153 * mp + 2) / 5 + d.day - 1
  let doe : Int := yoe * 365 + yoe / 4 - yoe / 100 + doy
  era * 146097 + doe - 719468

/-- ISO day of week (1 = Monday .. 7 = Sunday) of an epoch day number.
1970-01-01 (day 0) was a Thursday. -/
def isoDow (ord : Int) : Int :=
  Int.fmod (ord + 3) 7 + 1

/-- Epoch day number of the Thursday of the ISO week containing `d`. -/
def isoThursday (d : CalDate) : Int :=
  let ord := daysFromCivil d
  ord + 4 - isoDow ord

/-- The ISO week-year of `d`: the Gregorian year of the Thursday of the week
containing `d` (models column `year` of pandas `isocalendar()`). -/
def isoYear (d : CalDate) : Int :=
  let t := isoThursday d
  if daysFromCivil ⟨d.year + 1, 1, 1⟩ ≤ t then d.year + 1
  else if daysFromCivil ⟨d.year, 1, 1⟩ ≤ t then d.year
  else d.year - 1

/-- The ISO week number (1..53) of `d`: one plus the number of whole weeks
between the Thursday of `d`'s week and January 1 of the ISO week-year
(models column `week` of pandas `isocalendar()`). -/
def isoWeek (d : CalDate) : Int :=
  (isoThursday d - daysFromCivil ⟨isoYear d, 1, 1⟩) / 7 + 1

/-! ## Raw rows, sanitization, and observations -/

/-- One raw row of the `daily_scores` result set as seen by `get_averages`
after the two `errors='coerce'` conversions: `dateParse` and `scoreParse`
hold the parse results (`none` = `NaT`/`NaN` for an unparseable value). -/
structure RawRow where
  definitionid : Int
  dateParse : Option CalDate
  scoreParse : Option ℚ
  notes : Option String
deriving DecidableEq, Repr

/-- A sanitized observation: the surviving row after the two `dropna` calls
and `astype(int)`. -/
structure Obs where
  definitionid : Int
  date : CalDate
  score : Int
deriving DecidableEq, Repr

/-- `astype(int)` on a float64 value: truncation toward zero. -/
def truncToInt (q : ℚ) : Int :=
  Int.tdiv q.num q.den

/-- The per-row outcome of the sanitization pipeline of `get_averages`
(api.py lines 256-263): a row survives the two `dropna` calls iff both
coerced parses succeeded, and `astype(int)` truncates its score. -/
def parseRow (r : RawRow) : Option Obs :=
  match r.dateParse, r.scoreParse with
  | some d, some q => some ⟨r.definitionid, d, truncToInt q⟩
  | _, _ => none

/-- The sanitization pipeline of `get_averages` (api.py lines 256-263):
`to_datetime(errors='coerce')` + `dropna(['date'])`,
`to_numeric(errors='coerce')` + `dropna(['score'])`, then
`score.astype(int)`, applied row by row in order. -/
def sanitize (rows : List RawRow) : List Obs :=
  rows.filterMap parseRow

/-! ## Grouping and averaging -/

/-- A grouping key: `(definitionid, year, period)` where `period` is the ISO
week number for the weekly pass and the month for the monthly pass. -/
abbrev GroupKey := Int × Int × Int

/-- Key of the weekly groupby (api.py line 267):
`['definitionid', 'year', 'weekofyear']` where both `year` and `weekofyear`
come from `dt.isocalendar()` (lines 264, 266). -/
def weeklyKey (o : Obs) : GroupKey :=
  (o.definitionid, isoYear o.date, isoWeek o.date)

/-- Key of the monthly groupby (api.py line 271):
`['definitionid', 'year', 'month']`.  The `year` column was set on line 264
to `dt.isocalendar().year` — the ISO week-year — and is reused here unchanged;
`month` is the Gregorian month (line 270). -/
def monthlyKey (o : Obs) : GroupKey :=
  (o.definitionid, isoYear o.date, o.date.month)

/-- One output row of either aggregation: the renamed `mean`/`count`
aggregates (api.py lines 268, 272). -/
structure AvgRow where
  definitionid : Int
  year : Int
  period : Int
  averagescore : ℚ
  datapointscount : Nat
deriving DecidableEq, Repr

/-- The group of observations of `l` having key `k` under `key`. -/
def groupOf (key : Obs → GroupKey) (l : List Obs) (k : GroupKey) : List Obs :=
  l.filter fun o => key o = k

/-- The output row for key `k`: mean and count of the scores in its group. -/
def rowOf (key : Obs → GroupKey) (l : List Obs) (k : GroupKey) : AvgRow :=
  ⟨k.1, k.2.1, k.2.2,
    ((groupOf key l k).map fun o => (o.score : ℚ)).sum /
      ((groupOf key l k).length : ℚ),
    (groupOf key l k).length⟩

/-- `groupby(keys)['score'].agg(['mean','count'])`: one row per distinct key
present in `l`.  The groups are logically a set (the spec leaves output order
unspecified), so the result is a `Finset`. -/
def groupAgg (key : Obs → GroupKey) (l : List Obs) : Finset AvgRow :=
  (l.map key).toFinset.image (rowOf key l)

/-- The averages computation of `get_averages` (api.py lines 254-274): the
body after the ownership-filtered fetch.  The early `empty` returns of lines
254 and 261 coincide with the general path on empty data. -/
def computeAverages (rows : List RawRow) : Finset AvgRow × Finset AvgRow :=
  (groupAgg weeklyKey (sanitize rows), groupAgg monthlyKey (sanitize rows))

/-! ## The record store and the CRUD endpoints -/

/-- A row of the `subjects` table. -/
structure SubjectRow where
  subjectid : Int
  username : String
  subjectlabel : String
  datecreated : Int
deriving DecidableEq, Repr

/-- A row of the `definitions` table. -/
structure DefinitionRow where
  definitionid : Int
  subjectid : Int
  username : String
  behaviorname : String
  description : Option String
deriving DecidableEq, Repr

/-- A row of the `daily_scores` table.  The `date` and `score` columns are
carried as their parse results (see `RawRow`): `get_averages` reads them
through the two `errors='coerce'` conversions, and no claim below depends on
the unparsed text. -/
structure ScoreRow where
  logid : Int
  definitionid : Int
  username : String
  dateParse : Option CalDate
  scoreParse : Option ℚ
  notes : Option String
deriving DecidableEq, Repr

/-- The relational store: the three tables the modelled endpoints touch. -/
structure DB where
  subjects : List SubjectRow
  definitions : List DefinitionRow
  daily_scores : List ScoreRow
deriving DecidableEq, Repr

/-- An HTTP error response (`HTTPException`).  Note that the endpoints of
api.py raise their 404 `HTTPException` *inside* the `try` block, so it is
caught by `except Exception` and re-raised as a 500 whose detail wraps the
original message; the model records the status actually sent. -/
structure HttpError where
  statusCode : Nat
  detail : String
deriving DecidableEq, Repr

/-- `GET /subjects` (api.py line 131): `SELECT * FROM subjects WHERE
username = :user` (the `ORDER BY subjectlabel` only permutes the result). -/
def get_subjects (db : DB) (user : String) : List SubjectRow :=
  db.subjects.filter fun r => r.username = user

/-- A joined row returned by the definitions endpoints:
`d.*, s.subjectlabel`. -/
structure DefJoinRow where
  definitionid : Int
  subjectid : Int
  username : String
  behaviorname : String
  description : Option String
  subjectlabel : String
deriving DecidableEq, Repr

/-- Build the joined row `d.*, s.subjectlabel`. -/
def joinRow (d : DefinitionRow) (s : SubjectRow) : DefJoinRow :=
  ⟨d.definitionid, d.subjectid, d.username, d.behaviorname, d.description,
    s.subjectlabel⟩

/-- `GET /definitions` (api.py line 186): `SELECT d.*, s.subjectlabel FROM
definitions d JOIN subjects s ON d.subjectid = s.subjectid WHERE
d.username = :user` (the `ORDER BY` only permutes the result).  Note the join
condition matches `subjectid` only: the subjects side carries no username
filter. -/
def get_definitions (db : DB) (user : String) : List DefJoinRow :=
  (db.definitions.filter fun d => d.username = user).flatMap fun d =>
    (db.subjects.filter fun s => s.subjectid = d.subjectid).map fun s =>
      joinRow d s

/-- `GET /scores` (api.py line 236): `SELECT * FROM daily_scores WHERE
username = :user` (the `ORDER BY date DESC` only permutes the result). -/
def get_scores (db : DB) (user : String) : List ScoreRow :=
  db.daily_scores.filter fun r => r.username = user

/-- `BehaviorTracker.get_daily_scores` (engine.py line 62): `SELECT * FROM
daily_scores WHERE username = :user`. -/
def get_daily_scores (db : DB) (user : String) : List ScoreRow :=
  db.daily_scores.filter fun r => r.username = user

/-- `BehaviorTracker.get_subjects` (engine.py line 47). -/
def engine_get_subjects (db : DB) (user : String) : List SubjectRow :=
  db.subjects.filter fun r => r.username = user

/-- The columns of a fetched score row that feed the averages dataframe. -/
def rawOfScore (r : ScoreRow) : RawRow :=
  ⟨r.definitionid, r.dateParse, r.scoreParse, r.notes⟩

/-- `GET /averages` (api.py lines 247-274): the ownership-filtered fetch of
line 249 followed by `computeAverages`. -/
def get_averages (db : DB) (user : String) : Finset AvgRow × Finset AvgRow :=
  computeAverages ((get_scores db user).map rawOfScore)

/-- The subject rows matched by the subjects update/delete statements'
WHERE clause. -/
def subjectsMatching (db : DB) (id : Int) (user : String) : List SubjectRow :=
  db.subjects.filter fun r => r.subjectid = id ∧ r.username = user

/-- `PUT /subjects/{id}` (api.py lines 141-153): `UPDATE subjects SET
subjectlabel = :label WHERE subjectid = :id AND username = :user RETURNING *`,
answering the first updated row (`.first()`), then 404 (wrapped into a 500
by the `except` clause) when no row matched; the transaction is not
committed on that path, so the store is unchanged. -/
def update_subject (db : DB) (id : Int) (label : String) (user : String) :
    Except HttpError SubjectRow × DB :=
  match (subjectsMatching db id user).head? with
  | some row =>
      (Except.ok { row with subjectlabel := label },
        { db with subjects := db.subjects.map fun r =>
            if r.subjectid = id ∧ r.username = user then
              { r with subjectlabel := label } else r })
  | none =>
      (Except.error
        ⟨500, "404: Subject not found or user does not have permission"⟩, db)

/-- `DELETE /subjects/{id}` (api.py lines 155-166): `DELETE FROM subjects
WHERE subjectid = :id AND username = :user`; 404 (wrapped into a 500) when
`rowcount == 0`, with the store unchanged.  On success the `ON DELETE
CASCADE` constraints remove the definitions of the deleted subjects and the
scores of those definitions. -/
def delete_subject (db : DB) (id : Int) (user : String) :
    Except HttpError Unit × DB :=
  let deleted := subjectsMatching db id user
  if deleted.length = 0 then
    (Except.error
      ⟨500, "404: Subject not found or user does not have permission"⟩, db)
  else
    let deadSubjIds := deleted.map (·.subjectid)
    let deadDefs := db.definitions.filter fun d => d.subjectid ∈ deadSubjIds
    let deadDefIds := deadDefs.map (·.definitionid)
    (Except.ok (),
      { subjects := db.subjects.filter fun r =>
          ¬(r.subjectid = id ∧ r.username = user),
        definitions := db.definitions.filter fun d =>
          d.subjectid ∉ deadSubjIds,
        daily_scores := db.daily_scores.filter fun s =>
          s.definitionid ∉ deadDefIds })

/-- `_get_single_definition` (api.py lines 169-171): first row of the
username-filtered join at the given definition id. -/
def get_single_definition (db : DB) (user : String) (id : Int) :
    Option DefJoinRow :=
  ((db.definitions.filter fun d =>
      d.username = user ∧ d.definitionid = id).flatMap fun d =>
    (db.subjects.filter fun s => s.subjectid = d.subjectid).map fun s =>
      joinRow d s).head?

/-- The definition rows matched by the update/delete statements. -/
def definitionsMatching (db : DB) (id : Int) (user : String) :
    List DefinitionRow :=
  db.definitions.filter fun r => r.definitionid = id ∧ r.username = user

/-- `PUT /definitions/{id}` (api.py lines 196-208): `UPDATE definitions SET
behaviorname = :bname, description = :desc WHERE definitionid = :id AND
username = :user`; 404 (wrapped into a 500) when `rowcount == 0`, with the
store unchanged; otherwise commit and return `_get_single_definition`. -/
def update_definition (db : DB) (id : Int) (bname : String)
    (desc : Option String) (user : String) :
    Except HttpError (Option DefJoinRow) × DB :=
  if (definitionsMatching db id user).length = 0 then
    (Except.error
      ⟨500, "404: Definition not found or user does not have permission"⟩, db)
  else
    let updated := db.definitions.map fun r =>
      if r.definitionid = id ∧ r.username = user then
        { r with behaviorname := bname, description := desc } else r
    let db2 : DB := { db with definitions := updated }
    (Except.ok (get_single_definition db2 user id), db2)

/-- `DELETE /definitions/{id}` (api.py lines 210-221): `DELETE FROM
definitions WHERE definitionid = :id AND username = :user`; 404 (wrapped into
a 500) when `rowcount == 0`, with the store unchanged.  On success the
cascade removes the scores of the deleted definitions. -/
def delete_definition (db : DB) (id : Int) (user : String) :
    Except HttpError Unit × DB :=
  let deleted := definitionsMatching db id user
  if deleted.length = 0 then
    (Except.error
      ⟨500, "404: Definition not found or user does not have permission"⟩, db)
  else
    let deadDefIds := deleted.map (·.definitionid)
    (Except.ok (),
      { db with
        definitions := db.definitions.filter fun r =>
          ¬(r.definitionid = id ∧ r.username = user),
        daily_scores := db.daily_scores.filter fun s =>
          s.definitionid ∉ deadDefIds })

/-! ## General lemmas about the grouping passes -/

/-- Membership in a `groupAgg` output: every row is `rowOf` at the key of
some observation of the input, and its id/year/period fields spell that
key. -/
theorem mem_groupAgg {key : Obs → GroupKey} {l : List Obs} {r : AvgRow}
    (hr : r ∈ groupAgg key l) :
    ∃ o ∈ l, key o = (r.definitionid, r.year, r.period) ∧
      r = rowOf key l (key o) := by
  obtain ⟨k, hk, hrow⟩ := Finset.mem_image.mp hr
  obtain ⟨o, ho, hko⟩ := List.mem_map.mp (List.mem_toFinset.mp hk)
  subst hrow
  exact ⟨o, ho, hko.trans rfl, by rw [hko]⟩

/-- The row of an observation's own key is in the output. -/
theorem rowOf_mem_groupAgg {key : Obs → GroupKey} {l : List Obs} {o : Obs}
    (ho : o ∈ l) : rowOf key l (key o) ∈ groupAgg key l :=
  Finset.mem_image_of_mem _ (List.mem_toFinset.mpr (List.mem_map_of_mem key ho))

/-- Every `groupAgg` output row reports the size of its group as
`datapointscount`, that size is positive, and reports the mean of its
group's scores as `averagescore`. -/
theorem groupAgg_spec {key : Obs → GroupKey} {l : List Obs} {r : AvgRow}
    (hr : r ∈ groupAgg key l) :
    1 ≤ (groupOf key l (r.definitionid, r.year, r.period)).length ∧
    r.datapointscount = (groupOf key l (r.definitionid, r.year, r.period)).length ∧
    r.averagescore =
      ((groupOf key l (r.definitionid, r.year, r.period)).map
        fun o => (o.score : ℚ)).sum /
      ((groupOf key l (r.definitionid, r.year, r.period)).length : ℚ) := by
  obtain ⟨o, ho, hko, hrow⟩ := mem_groupAgg hr
  have homem : o ∈ groupOf key l (r.definitionid, r.year, r.period) :=
    List.mem_filter.mpr ⟨ho, by simp [hko]⟩
  refine ⟨List.length_pos_of_mem homem, ?_, ?_⟩
  · rw [← hko, hrow]; rfl
  · rw [← hko, hrow]; rfl

/-- Generic form: filtering a list by the fiber of `key` at `k` yields as
many elements as the multiplicity of `k` among the mapped keys. -/
theorem length_filter_eq_count {α β : Type} [DecidableEq β] (key : α → β)
    (l : List α) (k : β) :
    (l.filter fun o => key o = k).length =
      Multiset.count k (↑(l.map key) : Multiset β) := by
  rw [Multiset.coe_count]
  induction l with
  | nil => rfl
  | cons o t ih =>
    by_cases h : key o = k
    · simp [List.filter_cons, List.count_cons, h, beq_iff_eq] at ih ⊢
      omega
    · simp [List.filter_cons, List.count_cons, h, beq_iff_eq] at ih ⊢
      exact ih

/-- The size of the group of key `k` is the multiplicity of `k` among the
keys of `l`. -/
theorem groupOf_length_eq_count (key : Obs → GroupKey) (l : List Obs)
    (k : GroupKey) : (groupOf key l k).length =
      Multiset.count k (↑(l.map key) : Multiset GroupKey) :=
  length_filter_eq_count key l k

/-- `rowOf` determines its key: the first three fields spell it out. -/
theorem rowOf_inj (key : Obs → GroupKey) (l : List Obs) {k k' : GroupKey}
    (h : rowOf key l k = rowOf key l k') : k = k' := by
  have h1 := congrArg AvgRow.definitionid h
  have h2 := congrArg AvgRow.year h
  have h3 := congrArg AvgRow.period h
  simp only [rowOf] at h1 h2 h3
  exact Prod.ext h1 (Prod.ext h2 h3)

/-- Count conservation for one grouping pass: the group sizes reported over
all output rows add up to the input length. -/
theorem groupAgg_sum_counts (key : Obs → GroupKey) (l : List Obs) :
    ∑ r ∈ groupAgg key l, r.datapointscount = l.length := by
  unfold groupAgg
  rw [Finset.sum_image (fun k _ k' _ h => rowOf_inj key l h)]
  calc ∑ k ∈ (l.map key).toFinset, (rowOf key l k).datapointscount
      = ∑ k ∈ (l.map key).toFinset,
          Multiset.count k (↑(l.map key) : Multiset GroupKey) :=
        Finset.sum_congr rfl fun k _ => groupOf_length_eq_count key l k
    _ = Multiset.card (↑(l.map key) : Multiset GroupKey) := by
        rw [← List.toFinset_coe]
        exact Multiset.toFinset_sum_count_eq _
    _ = l.length := by
        rw [Multiset.coe_card, List.length_map]

/-- Lists that are permutations of one another have the same `toFinset`. -/
theorem toFinset_eq_of_perm {α : Type} [DecidableEq α] {l1 l2 : List α}
    (h : l1.Perm l2) : l1.toFinset = l2.toFinset := by
  rw [← List.toFinset_coe l1, ← List.toFinset_coe l2,
    Multiset.coe_eq_coe.mpr h]

/-- `rowOf` is invariant under permutation of the observation list. -/
theorem rowOf_congr_perm (key : Obs → GroupKey) {l1 l2 : List Obs}
    (h : l1.Perm l2) (k : GroupKey) : rowOf key l1 k = rowOf key l2 k := by
  have hp : (groupOf key l1 k).Perm (groupOf key l2 k) := h.filter _
  unfold rowOf
  rw [hp.length_eq, (hp.map fun o => (o.score : ℚ)).sum_eq]

/-- A grouping pass is invariant under permutation of its input. -/
theorem groupAgg_perm (key : Obs → GroupKey) {l1 l2 : List Obs}
    (h : l1.Perm l2) : groupAgg key l1 = groupAgg key l2 := by
  unfold groupAgg
  rw [toFinset_eq_of_perm (h.map key),
    funext fun k => rowOf_congr_perm key h k]

/-- A grouping pass over a single observation: one row, keyed by the
observation's key, whose mean is the observation's own score. -/
theorem groupAgg_singleton (key : Obs → GroupKey) (o : Obs) :
    groupAgg key [o] =
      {⟨(key o).1, (key o).2.1, (key o).2.2, (o.score : ℚ), 1⟩} := by
  have hg : groupOf key [o] (key o) = [o] := by simp [groupOf]
  unfold groupAgg
  simp only [List.map_cons, List.map_nil, List.toFinset_cons,
    List.toFinset_nil, insert_emptyc_eq, Finset.image_singleton]
  rw [rowOf, hg]
  simp

/-! ## The claims -/

/-- **C1.** The claim asserts the monthly grouping key uses the Gregorian
calendar year of the observation's date, so that an observation dated
2023-01-01 belongs to the monthly group with year 2023, month 1.  The code
does not: `api.py` line 264 sets the `year` column to
`dt.isocalendar().year` — the ISO week-year — and line 271 groups monthly by
that same column.  At the failing input (one score row of definition 2 dated
2023-01-01 with score 3), the single monthly row produced is keyed
year 2022, month 1, not year 2023. -/
theorem C1_monthly_group_uses_iso_week_year :
    isoYear ⟨2023, 1, 1⟩ = 2022 ∧
    (computeAverages [⟨2, some ⟨2023, 1, 1⟩, some 3, none⟩]).2 =
      {⟨2, 2022, 1, 3, 1⟩} := by
  refine ⟨by decide, ?_⟩
  have hs : sanitize [⟨2, some ⟨2023, 1, 1⟩, some 3, none⟩] =
      [⟨2, ⟨2023, 1, 1⟩, 3⟩] := by decide
  show groupAgg monthlyKey (sanitize _) = _
  rw [hs, groupAgg_singleton]
  have hk : monthlyKey ⟨2, ⟨2023, 1, 1⟩, 3⟩ = (2, 2022, 1) := by decide
  rw [hk]
  norm_num

/-- **C2.** Weekly rows are keyed by `(definition_id, iso_year, iso_week)`:
every weekly output row's `(definitionid, year, period)` triple is the
`weeklyKey` — ISO week-year and ISO week number — of some contributing
sanitized observation; and at the year boundary, 2023-01-01 has ISO week-year
2022 and ISO week 52, so an input with an observation dated 2023-01-01 yields
exactly the weekly row keyed (2022, 52), and none keyed year 2023. -/
theorem C2_weekly_iso_key :
    (∀ (rows : List RawRow) (r : AvgRow), r ∈ (computeAverages rows).1 →
      ∃ o ∈ sanitize rows,
        weeklyKey o = (r.definitionid, r.year, r.period)) ∧
    isoYear ⟨2023, 1, 1⟩ = 2022 ∧ isoWeek ⟨2023, 1, 1⟩ = 52 ∧
    (computeAverages [⟨2, some ⟨2023, 1, 1⟩, some 3, none⟩]).1 =
      {⟨2, 2022, 52, 3, 1⟩} := by
  refine ⟨?_, by decide, by decide, ?_⟩
  · intro rows r hr
    obtain ⟨o, ho, hko, -⟩ := mem_groupAgg hr
    exact ⟨o, ho, hko⟩
  · have hs : sanitize [⟨2, some ⟨2023, 1, 1⟩, some 3, none⟩] =
        [⟨2, ⟨2023, 1, 1⟩, 3⟩] := by decide
    show groupAgg weeklyKey (sanitize _) = _
    rw [hs, groupAgg_singleton]
    have hk : weeklyKey ⟨2, ⟨2023, 1, 1⟩, 3⟩ = (2, 2022, 52) := by decide
    rw [hk]
    norm_num

/-- Witness for C2 at a concrete input: the weekly row of the 2023-01-01
observation is keyed by the ISO week-year/week of some sanitized
observation. -/
theorem C2_weekly_iso_key_witness :
    ∃ o ∈ sanitize [⟨2, some ⟨2023, 1, 1⟩, some 3, none⟩],
      weeklyKey o =
        ((rowOf weeklyKey (sanitize [⟨2, some ⟨2023, 1, 1⟩, some 3, none⟩])
            (weeklyKey ⟨2, ⟨2023, 1, 1⟩, 3⟩)).definitionid,
         (rowOf weeklyKey (sanitize [⟨2, some ⟨2023, 1, 1⟩, some 3, none⟩])
            (weeklyKey ⟨2, ⟨2023, 1, 1⟩, 3⟩)).year,
         (rowOf weeklyKey (sanitize [⟨2, some ⟨2023, 1, 1⟩, some 3, none⟩])
            (weeklyKey ⟨2, ⟨2023, 1, 1⟩, 3⟩)).period) :=
  C2_weekly_iso_key.1 [⟨2, some ⟨2023, 1, 1⟩, some 3, none⟩]
    (rowOf weeklyKey (sanitize [⟨2, some ⟨2023, 1, 1⟩, some 3, none⟩])
      (weeklyKey ⟨2, ⟨2023, 1, 1⟩, 3⟩))
    (rowOf_mem_groupAgg (by decide))

/-- **C5.** An empty input is not an error: the computation on `[]` returns
two empty outputs, and likewise whenever sanitization discards every row
(the function is total, so no exception is modelled or possible). -/
theorem C5_empty_input :
    computeAverages [] = (∅, ∅) ∧
    ∀ rows : List RawRow, sanitize rows = [] →
      computeAverages rows = (∅, ∅) := by
  refine ⟨rfl, fun rows h => ?_⟩
  unfold computeAverages
  rw [h]
  rfl

/-- Witness for C5: an input whose only row has an unparseable date is fully
discarded and yields two empty outputs. -/
theorem C5_empty_input_witness :
    computeAverages [⟨7, none, some 4, some "note"⟩] = (∅, ∅) :=
  C5_empty_input.2 [⟨7, none, some 4, some "note"⟩] (by decide)

/-- **C7.** The averages computation is a deterministic pure function of the
multiset of its input rows: permuting the input leaves both outputs — which
are sets of rows — unchanged.  (Purity itself is inherent in the embedding:
`computeAverages` reads no state and writes none.) -/
theorem C7_determinism (l1 l2 : List RawRow) (h : l1.Perm l2) :
    computeAverages l1 = computeAverages l2 := by
  have hs : (sanitize l1).Perm (sanitize l2) := h.filterMap _
  unfold computeAverages
  rw [groupAgg_perm weeklyKey hs, groupAgg_perm monthlyKey hs]

/-- Witness for C7 at a concrete pair of permuted inputs. -/
theorem C7_determinism_witness :
    computeAverages
        [⟨1, some ⟨2024, 1, 8⟩, some 5, none⟩,
         ⟨1, some ⟨2024, 1, 9⟩, some 7, none⟩] =
      computeAverages
        [⟨1, some ⟨2024, 1, 9⟩, some 7, none⟩,
         ⟨1, some ⟨2024, 1, 8⟩, some 5, none⟩] :=
  C7_determinism _ _ (by decide)

/-- Erase the `notes` column of a raw row. -/
def scrubNotes (r : RawRow) : RawRow :=
  { r with notes := none }

/-- Sanitization never reads the `notes` column. -/
theorem sanitize_scrubNotes (l : List RawRow) :
    sanitize (l.map scrubNotes) = sanitize l := by
  unfold sanitize
  rw [List.filterMap_map]
  rfl

/-- **C9.** The `notes` field never influences the averages: two inputs that
agree after erasing every row's notes produce identical weekly and monthly
outputs. -/
theorem C9_notes_noninterference (l1 l2 : List RawRow)
    (h : l1.map scrubNotes = l2.map scrubNotes) :
    computeAverages l1 = computeAverages l2 := by
  have : sanitize l1 = sanitize l2 := by
    rw [← sanitize_scrubNotes l1, ← sanitize_scrubNotes l2, h]
  unfold computeAverages
  rw [this]

/-- Witness for C9 at a concrete pair of inputs differing only in notes. -/
theorem C9_notes_noninterference_witness :
    computeAverages [⟨1, some ⟨2024, 3, 5⟩, some 4, some "good day"⟩] =
      computeAverages [⟨1, some ⟨2024, 3, 5⟩, some 4, none⟩] :=
  C9_notes_noninterference _ _ (by decide)

/-- A score value of three and a half: parseable as a number by
`pd.to_numeric`, but not an integer and not integer-valued. -/
def badScore : ℚ := ⟨7, 2, by decide, by decide⟩

/-- **C3 counterexample.**  The claim asserts a row whose score is not an
integer (nor integer-valued) contributes to no output row.  The code parses
scores with `pd.to_numeric` — which accepts any number — and then
`astype(int)` truncates: a row with score 3.5 (denominator 2, so not
integer-valued) *survives* sanitization with score 3 and produces a weekly
output row, contradicting the claim. -/
theorem C3_counterexample :
    badScore.den ≠ 1 ∧
    sanitize [⟨1, some ⟨2024, 3, 5⟩, some badScore, none⟩] =
      [⟨1, ⟨2024, 3, 5⟩, 3⟩] ∧
    (computeAverages [⟨1, some ⟨2024, 3, 5⟩, some badScore, none⟩]).1 =
      {⟨1, 2024, 10, 3, 1⟩} := by
  refine ⟨by decide, by decide, ?_⟩
  have hs : sanitize [⟨1, some ⟨2024, 3, 5⟩, some badScore, none⟩] =
      [⟨1, ⟨2024, 3, 5⟩, 3⟩] := by decide
  show groupAgg weeklyKey (sanitize _) = _
  rw [hs, groupAgg_singleton]
  have hk : weeklyKey ⟨1, ⟨2024, 3, 5⟩, 3⟩ = (1, 2024, 10) := by decide
  rw [hk]
  norm_num

/-- **C3 (amended).** Sanitization discards exactly the rows whose date or
score fails to parse, and never raises (totality of the model): inserting a
row with a failed date or score parse anywhere in the input changes nothing,
and every row whose date parses and whose score parses as *any* number is
retained — with its score truncated toward zero, so a non-integer-valued
score is kept truncated rather than discarded. -/
theorem C3_amended_sanitization (l1 l2 : List RawRow) (r : RawRow) :
    ((r.dateParse = none ∨ r.scoreParse = none) →
      sanitize (l1 ++ r :: l2) = sanitize (l1 ++ l2) ∧
      computeAverages (l1 ++ r :: l2) = computeAverages (l1 ++ l2)) ∧
    (∀ (d : CalDate) (q : ℚ), r.dateParse = some d → r.scoreParse = some q →
      sanitize (l1 ++ r :: l2) =
        sanitize l1 ++ ⟨r.definitionid, d, truncToInt q⟩ :: sanitize l2) := by
  constructor
  · intro h
    have hnone : parseRow r = none := by
      rcases hdp : r.dateParse with _ | d <;>
        rcases hsp : r.scoreParse with _ | q <;>
        simp [hdp, hsp, parseRow] at h ⊢
    have hs : sanitize (l1 ++ r :: l2) = sanitize (l1 ++ l2) := by
      unfold sanitize
      rw [List.filterMap_append, List.filterMap_append,
        List.filterMap_cons, hnone]
    exact ⟨hs, by unfold computeAverages; rw [hs]⟩
  · intro d q hd hq
    have hsome : parseRow r = some ⟨r.definitionid, d, truncToInt q⟩ := by
      simp [parseRow, hd, hq]
    unfold sanitize
    rw [List.filterMap_append, List.filterMap_cons, hsome]

/-- Witness for C3 (amended) at concrete inputs: a malformed-date row
inserted between two valid rows contributes nothing, and a valid row is
retained with its parsed score. -/
theorem C3_amended_sanitization_witness :
    (sanitize [⟨1, some ⟨2024, 1, 8⟩, some 5, none⟩,
        ⟨9, none, some 2, none⟩] =
      sanitize [⟨1, some ⟨2024, 1, 8⟩, some 5, none⟩] ∧
     computeAverages [⟨1, some ⟨2024, 1, 8⟩, some 5, none⟩,
        ⟨9, none, some 2, none⟩] =
      computeAverages [⟨1, some ⟨2024, 1, 8⟩, some 5, none⟩]) ∧
    sanitize ([] ++ (⟨5, some ⟨2024, 6, 1⟩, some 4, none⟩ : RawRow) :: []) =
      sanitize [] ++ ⟨5, ⟨2024, 6, 1⟩, truncToInt 4⟩ :: sanitize [] :=
  ⟨(C3_amended_sanitization [⟨1, some ⟨2024, 1, 8⟩, some 5, none⟩] []
      ⟨9, none, some 2, none⟩).1 (Or.inl rfl),
   (C3_amended_sanitization [] [] ⟨5, some ⟨2024, 6, 1⟩, some 4, none⟩).2
      ⟨2024, 6, 1⟩ 4 rfl rfl⟩

/-- **C4.** Every output row of either pass reports a `sample_count` of at
least 1 equal to the number of sanitized observations whose grouping key is
that row's `(definitionid, year, period)` key, and an `average_score` equal
to the arithmetic mean (exact, in ℚ) of exactly those observations'
scores. -/
theorem C4_count_and_mean (rows : List RawRow) (r : AvgRow) :
    (r ∈ (computeAverages rows).1 →
      1 ≤ r.datapointscount ∧
      r.datapointscount = (groupOf weeklyKey (sanitize rows)
        (r.definitionid, r.year, r.period)).length ∧
      r.averagescore = ((groupOf weeklyKey (sanitize rows)
          (r.definitionid, r.year, r.period)).map
            fun o => (o.score : ℚ)).sum /
        ((groupOf weeklyKey (sanitize rows)
          (r.definitionid, r.year, r.period)).length : ℚ)) ∧
    (r ∈ (computeAverages rows).2 →
      1 ≤ r.datapointscount ∧
      r.datapointscount = (groupOf monthlyKey (sanitize rows)
        (r.definitionid, r.year, r.period)).length ∧
      r.averagescore = ((groupOf monthlyKey (sanitize rows)
          (r.definitionid, r.year, r.period)).map
            fun o => (o.score : ℚ)).sum /
        ((groupOf monthlyKey (sanitize rows)
          (r.definitionid, r.year, r.period)).length : ℚ)) := by
  refine ⟨fun hr => ?_, fun hr => ?_⟩
  · obtain ⟨hpos, hcount, hmean⟩ := groupAgg_spec hr
    refine ⟨?_, hcount, hmean⟩
    omega
  · obtain ⟨hpos, hcount, hmean⟩ := groupAgg_spec hr
    refine ⟨?_, hcount, hmean⟩
    omega

/-- A sample valid raw row, its sanitized observation, and the weekly output
row it generates; used by concrete witnesses. -/
def sampleRaw : RawRow := ⟨1, some ⟨2024, 1, 8⟩, some 5, none⟩

/-- The sanitized observation of `sampleRaw`. -/
def sampleObs : Obs := ⟨1, ⟨2024, 1, 8⟩, 5⟩

/-- The weekly output row generated by `sampleRaw`. -/
def sampleRowW : AvgRow :=
  rowOf weeklyKey (sanitize [sampleRaw]) (weeklyKey sampleObs)

/-- Witness for C4 at a concrete input: the weekly row of `sampleRaw`. -/
theorem C4_count_and_mean_witness :
    1 ≤ sampleRowW.datapointscount ∧
    sampleRowW.datapointscount = (groupOf weeklyKey (sanitize [sampleRaw])
      (sampleRowW.definitionid, sampleRowW.year, sampleRowW.period)).length ∧
    sampleRowW.averagescore = ((groupOf weeklyKey (sanitize [sampleRaw])
        (sampleRowW.definitionid, sampleRowW.year, sampleRowW.period)).map
          fun o => (o.score : ℚ)).sum /
      ((groupOf weeklyKey (sanitize [sampleRaw])
        (sampleRowW.definitionid, sampleRowW.year, sampleRowW.period)).length :
          ℚ) :=
  (C4_count_and_mean [sampleRaw] sampleRowW).1
    (rowOf_mem_groupAgg (by decide))

/-- Output rows whose group contains a given observation `o`: for `o` in the
input, exactly the row of `o`'s own key. -/
theorem groupAgg_filter_mem_eq_singleton (key : Obs → GroupKey) (l : List Obs)
    {o : Obs} (ho : o ∈ l) :
    ((groupAgg key l).filter fun r =>
      o ∈ groupOf key l (r.definitionid, r.year, r.period)) =
      {rowOf key l (key o)} := by
  ext r
  simp only [Finset.mem_filter, Finset.mem_singleton]
  constructor
  · rintro ⟨hr, hmem⟩
    obtain ⟨o', ho', hko', hrow⟩ := mem_groupAgg hr
    have hkey : key o = (r.definitionid, r.year, r.period) := by
      have h2 := (List.mem_filter.mp hmem).2
      simpa using h2
    rw [hrow, hko', ← hkey]
  · rintro rfl
    exact ⟨rowOf_mem_groupAgg ho,
      List.mem_filter.mpr ⟨ho, decide_eq_true rfl⟩⟩

/-- **C6.** Each sanitized observation is counted exactly once per pass: the
set of weekly (resp. monthly) output rows whose group contains it is a
singleton, and consequently the sample counts over all weekly (resp.
monthly) rows sum to the number of sanitized observations. -/
theorem C6_each_obs_counted_once (rows : List RawRow) :
    (∀ o ∈ sanitize rows,
      ((computeAverages rows).1.filter fun r =>
        o ∈ groupOf weeklyKey (sanitize rows)
          (r.definitionid, r.year, r.period)).card = 1 ∧
      ((computeAverages rows).2.filter fun r =>
        o ∈ groupOf monthlyKey (sanitize rows)
          (r.definitionid, r.year, r.period)).card = 1) ∧
    (∑ r ∈ (computeAverages rows).1, r.datapointscount =
      (sanitize rows).length) ∧
    (∑ r ∈ (computeAverages rows).2, r.datapointscount =
      (sanitize rows).length) := by
  refine ⟨fun o ho => ⟨?_, ?_⟩, groupAgg_sum_counts weeklyKey (sanitize rows),
    groupAgg_sum_counts monthlyKey (sanitize rows)⟩
  · rw [show (computeAverages rows).1 = groupAgg weeklyKey (sanitize rows)
        from rfl,
      groupAgg_filter_mem_eq_singleton weeklyKey (sanitize rows) ho]
    exact Finset.card_singleton _
  · rw [show (computeAverages rows).2 = groupAgg monthlyKey (sanitize rows)
        from rfl,
      groupAgg_filter_mem_eq_singleton monthlyKey (sanitize rows) ho]
    exact Finset.card_singleton _

/-- Witness for C6 at a concrete input: the observation of `sampleRaw` lies
in exactly one weekly group and exactly one monthly group. -/
theorem C6_each_obs_counted_once_witness :
    ((computeAverages [sampleRaw]).1.filter fun r =>
      sampleObs ∈ groupOf weeklyKey (sanitize [sampleRaw])
        (r.definitionid, r.year, r.period)).card = 1 ∧
    ((computeAverages [sampleRaw]).2.filter fun r =>
      sampleObs ∈ groupOf monthlyKey (sanitize [sampleRaw])
        (r.definitionid, r.year, r.period)).card = 1 :=
  (C6_each_obs_counted_once [sampleRaw]).1 sampleObs (by decide)

/-- A requesting user, used by the concrete stores below. -/
def alice : String := "alice"

/-- Another user of the same store. -/
def bob : String := "bob"

/-- A store in which alice owns a definition whose `subjectid` references a
subject owned by bob.  This state is reachable through the API itself:
`POST /definitions` (api.py line 173) inserts the client-supplied
`subject_id` with no check that the subject belongs to the requester. -/
def leakDB1 : DB :=
  ⟨[⟨5, bob, "BobSubject", 0⟩], [⟨1, 5, alice, "barks", none⟩], []⟩

/-- The same store after bob renames his subject: no alice-owned row
differs between `leakDB1` and `leakDB2`. -/
def leakDB2 : DB :=
  ⟨[⟨5, bob, "Renamed", 0⟩], [⟨1, 5, alice, "barks", none⟩], []⟩

/-- **C8 counterexample.**  The claim asserts every read operation consumes
and returns only rows of the requesting user, so other users' rows never
appear in nor affect the result.  `get_definitions` joins `subjects` on
`subjectid` alone (the username filter is on the definitions side only,
api.py line 188): in `leakDB1`, alice's result displays bob's subject label,
and bob renaming his subject — leaving every alice-owned row unchanged —
changes alice's result. -/
theorem C8_counterexample :
    (leakDB1.subjects.filter fun r => r.username = alice) =
      (leakDB2.subjects.filter fun r => r.username = alice) ∧
    leakDB1.definitions = leakDB2.definitions ∧
    leakDB1.daily_scores = leakDB2.daily_scores ∧
    (∃ row ∈ get_definitions leakDB1 alice,
      row.subjectlabel = "BobSubject") ∧
    get_definitions leakDB1 alice ≠ get_definitions leakDB2 alice := by
  decide

/-- **C8 (amended).**  `get_subjects` (API and engine), `get_scores`,
`get_daily_scores` and the averages fetch return only rows carrying the
requesting username and are fully determined by the store's rows with that
username; `get_definitions` returns only *definition* rows owned by the
requester, but the attached `subjectlabel` comes from the subjects row
matching the definition's `subjectid` regardless of that subject's owner
(see the counterexample). -/
theorem C8_amended_ownership (db db2 : DB) (user : String) :
    (∀ r ∈ get_subjects db user, r.username = user) ∧
    (∀ r ∈ engine_get_subjects db user, r.username = user) ∧
    (∀ r ∈ get_scores db user, r.username = user) ∧
    (∀ r ∈ get_daily_scores db user, r.username = user) ∧
    (∀ r ∈ get_definitions db user, r.username = user) ∧
    ((db.subjects.filter fun r => r.username = user) =
        (db2.subjects.filter fun r => r.username = user) →
      get_subjects db user = get_subjects db2 user ∧
      engine_get_subjects db user = engine_get_subjects db2 user) ∧
    ((db.daily_scores.filter fun r => r.username = user) =
        (db2.daily_scores.filter fun r => r.username = user) →
      get_scores db user = get_scores db2 user ∧
      get_daily_scores db user = get_daily_scores db2 user ∧
      get_averages db user = get_averages db2 user) := by
  refine ⟨fun r hr => ?_, fun r hr => ?_, fun r hr => ?_, fun r hr => ?_,
    fun r hr => ?_, fun h => ⟨h, h⟩, fun h => ⟨h, h, ?_⟩⟩
  · exact of_decide_eq_true (List.mem_filter.mp hr).2
  · exact of_decide_eq_true (List.mem_filter.mp hr).2
  · exact of_decide_eq_true (List.mem_filter.mp hr).2
  · exact of_decide_eq_true (List.mem_filter.mp hr).2
  · obtain ⟨d, hd, hr2⟩ := List.mem_flatMap.mp hr
    obtain ⟨s, hs, heq⟩ := List.mem_map.mp hr2
    have hdu : d.username = user :=
      of_decide_eq_true (List.mem_filter.mp hd).2
    rw [← heq]
    exact hdu
  · show computeAverages ((get_scores db user).map rawOfScore) =
      computeAverages ((get_scores db2 user).map rawOfScore)
    rw [show get_scores db user = get_scores db2 user from h]

/-- A store holding one alice-owned score row beside a bob-owned row. -/
def obsDB1 : DB :=
  ⟨[], [], [⟨1, 1, alice, some ⟨2024, 1, 8⟩, some 5, none⟩,
    ⟨2, 2, bob, some ⟨2024, 1, 9⟩, some 7, none⟩]⟩

/-- `obsDB1` with bob's score row replaced by a different bob-owned row;
alice's rows agree between the two stores. -/
def obsDB2 : DB :=
  ⟨[], [], [⟨1, 1, alice, some ⟨2024, 1, 8⟩, some 5, none⟩,
    ⟨3, 2, bob, some ⟨2025, 5, 5⟩, some 1, none⟩]⟩

/-- Witness for C8 (amended): changing only bob's rows leaves alice's
averages unchanged. -/
theorem C8_amended_ownership_witness :
    get_averages obsDB1 alice = get_averages obsDB2 alice :=
  ((C8_amended_ownership obsDB1 obsDB2 alice).2.2.2.2.2.2 (by decide)).2.2

/-- **C10.**  For each of the four guarded writes, when no stored row
matches both the id and the requesting username, the endpoint raises an
HTTP error (the inner 404 `HTTPException` is raised inside the `try` block,
caught by `except Exception`, and re-raised with status 500 — an error
either way, never a success) and the store is left unchanged: the
statement's WHERE clause matched nothing and the transaction is never
committed. -/
theorem C10_failed_write_is_error_and_noop (db : DB) (id : Int)
    (label bname user : String) (desc : Option String) :
    ((∀ r ∈ db.subjects, ¬(r.subjectid = id ∧ r.username = user)) →
      (update_subject db id label user).1 =
        Except.error ⟨500,
          "404: Subject not found or user does not have permission"⟩ ∧
      (update_subject db id label user).2 = db ∧
      (delete_subject db id user).1 =
        Except.error ⟨500,
          "404: Subject not found or user does not have permission"⟩ ∧
      (delete_subject db id user).2 = db) ∧
    ((∀ r ∈ db.definitions, ¬(r.definitionid = id ∧ r.username = user)) →
      (update_definition db id bname desc user).1 =
        Except.error ⟨500,
          "404: Definition not found or user does not have permission"⟩ ∧
      (update_definition db id bname desc user).2 = db ∧
      (delete_definition db id user).1 =
        Except.error ⟨500,
          "404: Definition not found or user does not have permission"⟩ ∧
      (delete_definition db id user).2 = db) := by
  constructor
  · intro h
    have hnil : subjectsMatching db id user = [] := by
      unfold subjectsMatching
      exact List.filter_eq_nil_iff.mpr fun a ha => by simpa using h a ha
    refine ⟨?_, ?_, ?_, ?_⟩
    · simp [update_subject, hnil]
    · simp [update_subject, hnil]
    · simp [delete_subject, hnil]
    · simp [delete_subject, hnil]
  · intro h
    have hnil : definitionsMatching db id user = [] := by
      unfold definitionsMatching
      exact List.filter_eq_nil_iff.mpr fun a ha => by simpa using h a ha
    refine ⟨?_, ?_, ?_, ?_⟩
    · simp [update_definition, hnil]
    · simp [update_definition, hnil]
    · simp [delete_definition, hnil]
    · simp [delete_definition, hnil]

/-- A store owned entirely by bob, against which alice's writes must fail. -/
def writeDB : DB :=
  ⟨[⟨5, bob, "BobSubject", 0⟩], [⟨9, 5, bob, "barks", none⟩], []⟩

/-- Witness for C10: alice's update of bob's subject and delete of bob's
definition both leave the store untouched (and, per the theorem applied
here, return errors). -/
theorem C10_failed_write_witness :
    (update_subject writeDB 5 "newlabel" alice).2 = writeDB ∧
    (delete_definition writeDB 9 alice).2 = writeDB :=
  ⟨((C10_failed_write_is_error_and_noop writeDB 5 "newlabel" "b" alice
      none).1 (by decide)).2.1,
   ((C10_failed_write_is_error_and_noop writeDB 9 "l" "b" alice
      none).2 (by decide)).2.2.2⟩

end Beehav
